import Mathlib

/-!
Shallow embedding of the timeturner segment-reconciliation and daily-summary
engine (src/timeturner/timeturner.py, models.py, db.py, settings.py,
helper.py).

Modelling conventions:
* A `datetime` is an `Int`: microseconds since an epoch day 0.  A `date` is an
  `Int` day number (`dateOf`).  The epoch day 0 stands for 1970-01-01, a
  Thursday, so `weekday d = (d + 3) % 7` matches Python's `date.weekday()`
  (Monday = 0).  A `timedelta` is an `Int` in microseconds.
* The SQLite store is a list of rows plus an autoincrement counter.  SQL
  string comparison of uniformly formatted ISO timestamps is chronological,
  hence modelled by `Int` comparison.
* The pydantic models `TimeSegment`/`PensiveRow`/`NewSegmentParams` in
  models.py do NOT declare a `full_days` field.  pydantic v2 with the default
  `extra="ignore"` silently drops an unexpected `full_days=...` constructor
  argument, and reading `.full_days` on such an object raises
  `AttributeError`.  The embedding mirrors this exactly: `PensiveRow` and
  `NewSegmentParams` carry no `full_days` field, and the code paths of
  timeturner.py that read the missing attribute
  (`split_segment_params_per_weekday` lines 422/438, `_add` line 490) are
  embedded as `Except.error` at the first such access.
* `pendulum.now()` inside `TimeSegment.duration` is modelled by an explicit
  `now` parameter.
* The recursive `_add` is embedded with explicit fuel (`addFuel`); the inner
  `for` loops over tags and conflicts are the structurally recursive
  `tagLoop` and `resolveLoop`, which receive the recursive call as a
  function argument `f`.
-/

/-- Microseconds in one minute. -/
def usecMinute : Int := 60000000

/-- Microseconds in one hour. -/
def usecHour : Int := 3600000000

/-- Microseconds in one calendar day. -/
def dayLen : Int := 86400000000

/-- Python `datetime.date()`: the day number of a timestamp (floor division). -/
def dateOf (dt : Int) : Int := dt / dayLen

/-- Python `datetime.time()`: microsecond-of-day of a timestamp. -/
def timeOf (dt : Int) : Int := dt % dayLen

/-- Python `date.weekday()`: Monday = 0 ... Sunday = 6; day 0 is a Thursday. -/
def weekday (d : Int) : Int := (d + 3) % 7

/-- helper.end_of_day: the first moment of the next day. -/
def end_of_day (dt : Int) : Int := (dateOf dt + 1) * dayLen

/-- helper.iter_over_days: the day numbers from the day of `start` through
the day of `stop - 1μs`, empty when that is before `start`; raises "Too many days"
past 500 days. -/
def iter_over_days (start stop : Int) : Except String (List Int) :=
  let e := stop - 1
  if e < start then .ok []
  else
    let first := dateOf start
    let last := dateOf e
    let n := (last - first + 1).toNat
    if n > 500 then .error "Too many days"
    else .ok ((List.range n).map (fun i => first + Int.ofNat i))

/-- settings.TagSettings (all behavioural flags of a tag). -/
structure TagSettings where
  name : String
  full_day : Bool := false
  work_day : Bool := false
  priority : Int := 0
  track_work_time : Bool := false
  track_work_time_passive : Bool := false
  track_break_time : Bool := false
  track_over_time : Bool := false
  only_cover_work_days : Bool := false
  deriving Repr, DecidableEq

/-- settings.DefaultTagSettings: the generic fallback tag. -/
def DefaultTagSettings (name : String) : TagSettings :=
  { name := name, track_work_time := true, track_over_time := true }

/-- settings.ReportSettings (the fields the engine consults).
`worktime_per_weekday` and `tag_settings` are Python dicts, modelled as
association lists; durations are microseconds. -/
structure ReportSettings where
  holiday_tag : String
  passive_travel_tag : String
  worktime_per_weekday : List (Int × Int)
  tag_settings : List (String × TagSettings)
  deriving Repr, DecidableEq

/-- ReportSettings.get_tag. -/
def get_tag (rs : ReportSettings) (t : String) : TagSettings :=
  (rs.tag_settings.lookup t).getD (DefaultTagSettings t)

/-- ReportSettings.get_highest_priority_tag: Python `max` keeps the first
maximum of the iteration. -/
def get_highest_priority_tag (rs : ReportSettings) (tags : List String)
    (filterFullDay : Bool) : TagSettings :=
  let l := tags.map (get_tag rs)
  let l := if filterFullDay then l.filter (·.full_day) else l
  match l with
  | [] => DefaultTagSettings "no_tag"
  | h :: rest => rest.foldl (fun best x => if x.priority > best.priority then x else best) h

/-- ReportSettings.is_work_day (argument is a day number). -/
def is_work_day (rs : ReportSettings) (d : Int) : Bool :=
  if rs.worktime_per_weekday.isEmpty then
    decide (0 ≤ weekday d ∧ weekday d ≤ 4)
  else
    match rs.worktime_per_weekday.lookup (weekday d) with
    | some dur => decide (dur ≠ 0)
    | none => false

/-- The default settings.ReportSettings() used by the repository's tests. -/
def defaultReportSettings : ReportSettings :=
  { holiday_tag := "holiday"
  , passive_travel_tag := "travel"
  , worktime_per_weekday :=
      [(0, 8 * usecHour), (1, 8 * usecHour), (2, 8 * usecHour),
       (3, 8 * usecHour), (4, 8 * usecHour), (5, 0), (6, 0)]
  , tag_settings :=
      [ ("holiday", { name := "holiday", full_day := true, priority := 10 })
      , ("sick-certified", { name := "sick-certified", full_day := true, priority := 9 })
      , ("vacation", { name := "vacation", full_day := true, priority := 8,
                       only_cover_work_days := true })
      , ("sick", { name := "sick", full_day := true, priority := 7 })
      , ("travel", { name := "travel", track_work_time_passive := true }) ] }

/-- models.PensiveRow as pydantic defines it: pk, start, end, passive, tags,
description — and no `full_days` field (`stop` stands for the reserved word
`end`). -/
structure PensiveRow where
  pk : Nat
  start : Int
  stop : Option Int
  passive : Bool
  tags : List String
  description : Option String
  deriving Repr, DecidableEq

/-- models.NewSegmentParams as pydantic defines it: start, end, tags,
description (default ""), passive — and no `full_days` field. -/
structure NewSegmentParams where
  start : Int
  stop : Option Int
  tags : List String
  description : String := ""
  passive : Bool := false
  deriving Repr, DecidableEq

/-- pydantic construction of NewSegmentParams when the caller also passes a
`full_days=` keyword (as add_holidays does): with `extra="ignore"` the extra
argument is silently dropped. -/
def mkNewSegmentParamsWithFullDays (start : Int) (stop : Option Int)
    (tags : List String) (description : String) (passive : Bool)
    (_full_days : Bool) : NewSegmentParams :=
  { start := start, stop := stop, tags := tags,
    description := description, passive := passive }

/-- A row of the SQLite table: the `full_days` column is real in the
database even though the pydantic models no longer carry it. -/
structure StoredRow where
  pk : Nat
  start : Int
  stop : Option Int
  passive : Bool
  full_days : Bool
  tags : List String
  description : Option String
  deriving Repr, DecidableEq

/-- db.DatabaseConnection: the table plus the autoincrement counter. -/
structure Store where
  rows : List StoredRow
  nextPk : Nat
  deriving Repr, DecidableEq

/-- Reading a stored row back through `get_segment` constructs a pydantic
PensiveRow: the `full_days` column value is dropped. -/
def toPensiveRow (r : StoredRow) : PensiveRow :=
  { pk := r.pk, start := r.start, stop := r.stop, passive := r.passive,
    tags := r.tags, description := r.description }

/-- db.add_segment: INSERT with autoincrement pk; `full_days` defaults to
FALSE; returns the row read back as a PensiveRow. -/
def add_segment (db : Store) (start : Int) (stop : Option Int)
    (passive : Bool) (full_days : Bool) (tags : List String)
    (description : Option String) : PensiveRow × Store :=
  let r : StoredRow :=
    { pk := db.nextPk, start := start, stop := stop, passive := passive,
      full_days := full_days, tags := tags, description := description }
  (toPensiveRow r, { rows := db.rows ++ [r], nextPk := db.nextPk + 1 })

/-- The call `db.add_segment(**new_segment_params.model_dump())`: the dump of a
NewSegmentParams has no `full_days` key, so the column takes its default
FALSE. -/
def add_segment_from_params (db : Store) (p : NewSegmentParams) : PensiveRow × Store :=
  add_segment db p.start p.stop p.passive false p.tags (some p.description)

/-- db.update_segment(pk, start=...). -/
def updateSegStart (db : Store) (pk : Nat) (v : Int) : Store :=
  { db with rows := db.rows.map (fun r => if r.pk = pk then { r with start := v } else r) }

/-- db.update_segment(pk, end=...). -/
def updateSegStop (db : Store) (pk : Nat) (v : Option Int) : Store :=
  { db with rows := db.rows.map (fun r => if r.pk = pk then { r with stop := v } else r) }

/-- db.delete_segment. -/
def delete_segment (db : Store) (pk : Nat) : Store :=
  { db with rows := db.rows.filter (fun r => r.pk ≠ pk) }

/-- Stable insertion into a start-ordered list (models ORDER BY start ASC). -/
def insertByStart (r : StoredRow) : List StoredRow → List StoredRow
  | [] => [r]
  | x :: xs => if r.start < x.start then r :: x :: xs else x :: insertByStart r xs

/-- ORDER BY start ASC. -/
def sortByStart : List StoredRow → List StoredRow
  | [] => []
  | x :: xs => insertByStart x (sortByStart xs)

/-- db.get_segments_between: rows with `start <= ?end AND (end > ?start OR
end IS NULL)` (optionally `AND full_days == FALSE`), ordered by start; when
`end` is None the query uses `start` for both bounds and additionally
appends the first row starting strictly after `start`. -/
def get_segments_between (db : Store) (s : Int) (e? : Option Int)
    (excludeFullDays : Bool) : List PensiveRow :=
  let qe := e?.getD s
  let pred : StoredRow → Bool := fun r =>
    decide (r.start ≤ qe)
      && (match r.stop with | some re => decide (re > s) | none => true)
      && (!excludeFullDays || !r.full_days)
  let main := (sortByStart (db.rows.filter pred)).map toPensiveRow
  match e? with
  | some _ => main
  | none =>
      main ++
        (match (sortByStart (db.rows.filter (fun r => r.start > s))).head? with
         | some r => [toPensiveRow r]
         | none => [])


/-- timeturner.get_tag_prio: the maximum priority among the tags that have
settings, 0 otherwise. -/
def get_tag_prio (tags : List String) (settings : List (String × TagSettings)) : Int :=
  tags.foldl
    (fun m t =>
      match settings.lookup t with
      | some ts => max ts.priority m
      | none => m)
    0

/-- timeturner.split_segment_params: the before/middle/after pieces of the
new segment around a conflicting segment. -/
def split_segment_params (p : NewSegmentParams) (c : PensiveRow) :
    Option NewSegmentParams × Option NewSegmentParams × Option NewSegmentParams :=
  let before :=
    if p.start < c.start then
      some { start := p.start, stop := some c.start, tags := p.tags,
             description := p.description, passive := p.passive }
    else none
  let middle :=
    match c.stop, p.stop with
    | some ce, some pe =>
        if c.start ≤ p.start ∧ pe ≤ ce then
          some { start := c.start, stop := some ce, tags := p.tags,
                 description := p.description, passive := p.passive }
        else none
    | _, _ => none
  let after :=
    match c.stop with
    | some ce =>
        if (match p.stop with | some pe => decide (pe > ce) | none => true) then
          some { start := ce, stop := p.stop, tags := p.tags,
                 description := p.description, passive := p.passive }
        else none
    | none => none
  (before, middle, after)

/-- The AttributeError raised when timeturner.py reads the `full_days`
attribute that models.NewSegmentParams no longer declares. -/
def attrErrParams : String :=
  "AttributeError: NewSegmentParams object has no attribute full_days"

/-- The AttributeError raised when timeturner.py reads the `full_days`
attribute that models.PensiveRow no longer declares. -/
def attrErrRow : String :=
  "AttributeError: PensiveRow object has no attribute full_days"

/-- The day-scanning loop of timeturner.split_segment_params_per_weekday:
every `ret.append(NewSegmentParams(..., full_days=new_segment_params.full_days))`
raises AttributeError, so the loop errors at its first append (a work day to
weekend transition) and the trailing append errors when the scan ends in the
"work" condition; it only completes when no append ever happens. -/
def weekdayScan (rs : ReportSettings) : List Int → Bool → Except String Unit
  | [], onWork => if onWork then .error attrErrParams else .ok ()
  | d :: ds, onWork =>
    if onWork then
      if !is_work_day rs d then .error attrErrParams
      else weekdayScan rs ds true
    else
      if is_work_day rs d then weekdayScan rs ds true
      else weekdayScan rs ds false

/-- timeturner.split_segment_params_per_weekday: asserts an end exists, then
scans the covered days; because building any piece reads the missing
`full_days` attribute, the call raises unless the result would be empty. -/
def split_segment_params_per_weekday (p : NewSegmentParams) (rs : ReportSettings) :
    Except String (List NewSegmentParams) :=
  match p.stop with
  | none => .error "AssertionError: new_segment_params.end is None"
  | some e =>
    match iter_over_days p.start e with
    | .error m => .error m
    | .ok days =>
      match weekdayScan rs days (is_work_day rs (dateOf p.start)) with
      | .error m => .error m
      | .ok _ => .ok []

/-- The recursive calls `_add(part, ...)` over a list of per-weekday parts,
concatenating results and threading the store (`f` is the recursive call). -/
def addMany (f : NewSegmentParams → Store → Except String (List PensiveRow × Store)) :
    List NewSegmentParams → Store → Except String (List PensiveRow × Store)
  | [], db => .ok ([], db)
  | q :: qs, db =>
    match f q db with
    | .error m => .error m
    | .ok (r1, db1) =>
      match addMany f qs db1 with
      | .error m => .error m
      | .ok (r2, db2) => .ok (r1 ++ r2, db2)

/-- The call `ret.extend(_add(piece, ...))` for an optional before/after piece. -/
def addOpt (f : NewSegmentParams → Store → Except String (List PensiveRow × Store)) :
    Option NewSegmentParams → Store → Except String (List PensiveRow × Store)
  | none, db => .ok ([], db)
  | some q, db => f q db

/-- The `for tag in new_segment_params.tags` preamble of timeturner._add:
work-days-only tags trigger the per-weekday split (empty split returns [],
more than one part recurses via `f`, exactly one part replaces the params),
and full-day tags replace the conflict candidates by the stored segments
overlapping the ORIGINAL `start`/`end` filtered on the missing
`segment.full_days` attribute, which raises AttributeError as soon as the
query returns any row.  `Sum.inl` is an early return, `Sum.inr` falls
through with the (possibly replaced) params and candidate list. -/
def tagLoop (f : NewSegmentParams → Store → Except String (List PensiveRow × Store))
    (rs : ReportSettings) (s : Int) (e? : Option Int) (db : Store) :
    List String → NewSegmentParams → Option (List PensiveRow) →
    Except String ((List PensiveRow × Store) ⊕ (NewSegmentParams × Option (List PensiveRow)))
  | [], p, acc => .ok (.inr (p, acc))
  | t :: ts, p, acc =>
    match rs.tag_settings.lookup t with
    | none => tagLoop f rs s e? db ts p acc
    | some tset =>
      if tset.only_cover_work_days then
        match split_segment_params_per_weekday p rs with
        | .error m => .error m
        | .ok parts =>
          if parts.length = 0 then .ok (.inl ([], db))
          else if parts.length > 1 then
            match addMany f parts db with
            | .error m => .error m
            | .ok res => .ok (.inl res)
          else
            let p1 := parts.headD p
            if tset.full_day then
              match get_segments_between db s e? false with
              | [] => tagLoop f rs s e? db ts p1 (some [])
              | _ :: _ => .error attrErrRow
            else tagLoop f rs s e? db ts p1 acc
      else
        if tset.full_day then
          match get_segments_between db s e? false with
          | [] => tagLoop f rs s e? db ts p (some [])
          | _ :: _ => .error attrErrRow
        else tagLoop f rs s e? db ts p acc

/-- The `for conflicting_segment in conflicting_segments` loop of
timeturner._add.  `p` is the mutable `new_segment_params`, `s`/`e?` the
local `start`/`end` variables (note line 554 updates `new_segment_params.end`
without updating the local `end`, and lines 515/586 update both), `curPrio`
the `current_tag_prio` computed once from the original tags, `f` the
recursive `_add` call used by the before/after split. -/
def resolveLoop (f : NewSegmentParams → Store → Except String (List PensiveRow × Store))
    (now : Int) (rs : ReportSettings) (curPrio : Int) :
    List PensiveRow → NewSegmentParams → Int → Option Int → Store →
    Except String (List PensiveRow × Store)
  | [], p, _, _, db =>
    let (r, db1) := add_segment_from_params db p
    .ok ([r], db1)
  | c :: rest, p, s, e?, db =>
    let cPrio := get_tag_prio c.tags rs.tag_settings
    if s ≤ c.start then
      match e? with
      | some e =>
        if e > c.start then
          if (match c.stop with | some ce => decide (e < ce) | none => true) then
            -- the conflicting segment covers the end of the new one
            if cPrio ≤ curPrio then
              resolveLoop f now rs curPrio rest p s (some e) (updateSegStart db c.pk e)
            else
              resolveLoop f now rs curPrio rest
                { p with stop := some c.start } s (some c.start) db
          else
            -- the conflicting segment is fully covered by the new segment
            if cPrio ≤ curPrio then
              resolveLoop f now rs curPrio rest p s (some e) (delete_segment db c.pk)
            else
              match addOpt f (split_segment_params p c).1 db with
              | .error m => .error m
              | .ok (r1, db1) =>
                match addOpt f (split_segment_params p c).2.2 db1 with
                | .error m => .error m
                | .ok (r2, db2) => .ok (r1 ++ r2, db2)
        else
          resolveLoop f now rs curPrio rest p s (some e) db
      | none =>
        if c.start < now then
          resolveLoop f now rs curPrio rest { p with stop := some c.start } s none db
        else
          resolveLoop f now rs curPrio rest p s none db
    else
      match c.stop with
      | none =>
        -- the conflicting open segment is closed at the new start
        resolveLoop f now rs curPrio rest p s e? (updateSegStop db c.pk (some s))
      | some ce =>
        match e? with
        | some e =>
          if s > c.start ∧ e < ce then
            -- the new segment is in the middle of the conflicting one
            if cPrio ≤ curPrio then
              let db1 := updateSegStop db c.pk (some s)
              let (r1, db2) := add_segment_from_params db1 p
              let (r2, db3) := add_segment db2 e (some ce) c.passive false c.tags c.description
              .ok ([r1, r2], db3)
            else .ok ([], db)
          else if s < ce ∧ s > c.start then
            -- the new segment starts in the middle of the conflicting one
            if cPrio ≤ curPrio then
              resolveLoop f now rs curPrio rest p s (some e) (updateSegStop db c.pk (some s))
            else
              resolveLoop f now rs curPrio rest { p with start := ce } ce (some e) db
          else
            resolveLoop f now rs curPrio rest p s (some e) db
        | none =>
          if s < ce ∧ s > c.start then
            if cPrio ≤ curPrio then
              resolveLoop f now rs curPrio rest p s none (updateSegStop db c.pk (some s))
            else
              resolveLoop f now rs curPrio rest { p with start := ce } ce none db
          else
            resolveLoop f now rs curPrio rest p s none db

/-- timeturner._add with explicit recursion fuel: the tag preamble, then the
conflict determination (full-day candidates were computed in the preamble;
otherwise the store query excludes full-day rows), then the conflict loop
ending in the final insert. -/
def addFuel : Nat → Int → ReportSettings → NewSegmentParams → Store →
    Except String (List PensiveRow × Store)
  | 0, _, _, _, _ => .error "recursion fuel exhausted"
  | Nat.succ fuel, now, rs, p, db =>
    let s := p.start
    let e? := p.stop
    let curPrio := get_tag_prio p.tags rs.tag_settings
    match tagLoop (addFuel fuel now rs) rs s e? db p.tags p none with
    | .error m => .error m
    | .ok (.inl res) => .ok res
    | .ok (.inr (p1, acc)) =>
      let conflicts :=
        match acc with
        | some cs => cs
        | none => get_segments_between db s e? true
      resolveLoop (addFuel fuel now rs) now rs curPrio conflicts p1 s e? db

/-- models.DayType. -/
inductive DayType where
  | WORK
  | HOLIDAY
  | VACATION
  | WEEKEND
  deriving Repr, DecidableEq

/-- models.DailySummary (`stop` stands for `end`; durations and times of day
in microseconds; `by_tag` is an insertion-ordered dict). -/
structure DailySummary where
  day : Int
  day_type : DayType
  work_time : Int
  break_time : Int
  over_time : Int
  start : Option Int
  stop : Option Int
  description : Option String
  by_tag : List (String × Int)
  deriving Repr, DecidableEq

/-- TimeSegment.duration: `end - start`, with `pendulum.now()` for an open
segment. -/
def durationOf (now : Int) (r : PensiveRow) : Int := (r.stop.getD now) - r.start

/-- The set `set(tag for segment in segments for tag in segment.tags)`, modelled as
a first-occurrence-ordered deduplicated list. -/
def collectTags (segs : List PensiveRow) : List String :=
  segs.foldl (fun acc r => r.tags.foldl (fun a t => if t ∈ a then a else a ++ [t]) acc) []

/-- The day-level tracking flags (track_work_time, track_break_time,
track_over_time) of get_daily_summary lines 129-140: defaults overridden by
the highest-priority full-day tag, if any. -/
def trackingFlags (rs : ReportSettings) (tags : List String) : Bool × Bool × Bool :=
  if tags.isEmpty then (true, false, true)
  else
    let hp := get_highest_priority_tag rs tags true
    if hp.full_day then (hp.track_work_time, hp.track_break_time, hp.track_over_time)
    else (true, false, true)

/-- The update `by_tag[tag] += duration` on an insertion-ordered dict. -/
def bumpTag (m : List (String × Int)) (t : String) (d : Int) : List (String × Int) :=
  match m.lookup t with
  | some v => m.map (fun kv => if kv.1 = t then (kv.1, v + d) else kv)
  | none => m ++ [(t, d)]

/-- The holiday short-circuit summary of get_daily_summary lines 154-165. -/
def holidaySummary (day : Int) : DailySummary :=
  { day := day, day_type := .HOLIDAY, work_time := 0, break_time := 0,
    over_time := 0, start := none, stop := none,
    description := some "Holiday", by_tag := [] }

/-- The accumulator of the first loop of get_daily_summary. -/
structure SumState where
  work : Int
  passiveW : Int
  brk : Int
  startT : Option Int
  byTag : List (String × Int)
  deriving Repr, DecidableEq

/-- The first `for segment in segments` loop of get_daily_summary: per
segment, the passive-tag scan, the same-day check (a ValueError), the
holiday short-circuit (an early `return`, `Sum.inl`), the first-start
capture and the work/passive/break accumulation. -/
def sumLoop (rs : ReportSettings) (day now : Int) (tw tb : Bool) :
    List PensiveRow → SumState → Except String (DailySummary ⊕ SumState)
  | [], st => .ok (.inr st)
  | seg :: rest, st =>
    if dateOf seg.start ≠ day then
      .error "ValueError: Segment is not on the given day."
    else if rs.holiday_tag ∈ seg.tags then
      .ok (.inl (holidaySummary day))
    else
      let isPassive := seg.tags.any (fun t => (get_tag rs t).track_work_time_passive)
      let d := durationOf now seg
      let st1 :=
        { st with startT := match st.startT with
                            | none => some (timeOf seg.start)
                            | some x => some x }
      let st2 :=
        if tw then
          (if isPassive then { st1 with passiveW := st1.passiveW + d }
           else { st1 with work := st1.work + d })
        else if tb then { st1 with brk := st1.brk + d }
        else st1
      let st3 := { st2 with byTag := seg.tags.foldl (fun m t => bumpTag m t d) st2.byTag }
      sumLoop rs day now tw tb rest st3

/-- The `pairwise_iter` gap loop of get_daily_summary lines 182-192: an open
segment followed by another raises; gaps over one minute are breaks, shorter
ones are folded back into work time. -/
def gapLoop : List PensiveRow → Int → Int → Except String (Int × Int)
  | [], w, b => .ok (w, b)
  | [_], w, b => .ok (w, b)
  | a :: bseg :: rest, w, b =>
    match a.stop with
    | none => .error "ValueError: Segment has no end time but is followed by another segment."
    | some ae =>
      let g := bseg.start - ae
      if g > usecMinute then gapLoop (bseg :: rest) w (b + g)
      else gapLoop (bseg :: rest) (w + g) b

/-- The statutory-minimum-break stage of get_daily_summary lines 194-203:
over 6h15m of work with less than 45m of breaks moves the missing break time
from work to break; otherwise over 4h with less than 15m moves up to 15m. -/
def applyBreakRules (w b : Int) : Int × Int :=
  if w > 375 * usecMinute then
    if b < 45 * usecMinute then
      let missing := 45 * usecMinute - b
      (w - missing, b + missing)
    else (w, b)
  else if w > 240 * usecMinute then
    if b < 15 * usecMinute then
      let missing := 15 * usecMinute - b
      (w - missing, b + missing)
    else (w, b)
  else (w, b)

/-- The passive-work merge stage of get_daily_summary lines 205-213: passive
work time is added to work time only up to a 10-hour cap. -/
def mergePassiveWork (w p : Int) : Int :=
  if w > 600 * usecMinute then w
  else if w + p > 600 * usecMinute then 600 * usecMinute
  else w + p

/-- timeturner.get_daily_summary. -/
def get_daily_summary (day : Int) (segs : List PensiveRow) (now : Int)
    (rs : ReportSettings) : Except String DailySummary :=
  let tags := collectTags segs
  let (tw, tb, tov) := trackingFlags rs tags
  match sumLoop rs day now tw tb segs
      { work := 0, passiveW := 0, brk := 0, startT := none, byTag := [] } with
  | .error m => .error m
  | .ok (.inl hs) => .ok hs
  | .ok (.inr st) =>
    let endT :=
      match segs.getLast? with
      | some lastSeg => lastSeg.stop.map timeOf
      | none => none
    match gapLoop segs st.work st.brk with
    | .error m => .error m
    | .ok (w1, b1) =>
      let (w2, b2) := applyBreakRules w1 b1
      let w3 := mergePassiveWork w2 st.passiveW
      match rs.worktime_per_weekday.lookup (weekday day) with
      | none => .error "KeyError: weekday has no configured work time"
      | some requiredDur =>
        let dayType : DayType := if requiredDur ≠ 0 then .WORK else .WEEKEND
        let required := if tov then requiredDur else 0
        let hasSick := "sick" ∈ tags
        let ov0 := w3 - required
        let ov := if hasSick ∧ ov0 < 0 then 0 else ov0
        .ok { day := day, day_type := dayType, work_time := w3,
              break_time := b2, over_time := ov, start := st.startT,
              stop := endT, description := none, by_tag := st.byTag }

/-- timeturner.split_segments_at_midnight for a single row: unchanged when
open or contained in one calendar day, otherwise a first piece to the end of
the start day and one piece per further day (the last ending at the original
end), all sharing pk, tags, description and passive flag. -/
def splitRow (row : PensiveRow) : Except String (List PensiveRow) :=
  match row.stop with
  | some e =>
    if dateOf e = dateOf row.start then .ok [row]
    else
      match iter_over_days (end_of_day row.start) e with
      | .error m => .error m
      | .ok days =>
        let firstPiece : PensiveRow := { row with stop := some (end_of_day row.start) }
        let pieces := days.map (fun d =>
          { row with start := d * dayLen,
                     stop := some (if d = dateOf e then e else (d + 1) * dayLen) })
        .ok (firstPiece :: pieces)
  | none => .ok [row]

/-- timeturner.split_segments_at_midnight over a list of rows (the
generator's output, which raises as soon as one row raises). -/
def split_segments_at_midnight : List PensiveRow → Except String (List PensiveRow)
  | [] => .ok []
  | r :: rest =>
    match splitRow r with
    | .error m => .error m
    | .ok l =>
      match split_segments_at_midnight rest with
      | .error m => .error m
      | .ok l2 => .ok (l ++ l2)

/-- The reconstruction check for C9: starting from `s`, each piece starts
exactly where the previous one ended; returns the final end. -/
def chainFrom : Int → List PensiveRow → Option Int
  | s, [] => some s
  | s, r :: rest =>
    if r.start = s then
      match r.stop with
      | some e => chainFrom e rest
      | none => none
    else none

/-! ## Example fixtures

Day 5623 is 1985-05-25 (a Saturday), 5625 is 1985-05-27 (a Monday), 5691 is
1985-08-01 (a Thursday), used by the repository's own tests and the spec's
examples. -/

/-- The default ReportSettings() fixture. -/
def rs0 : ReportSettings := defaultReportSettings

/-- An empty store. -/
def db0 : Store := { rows := [], nextPk := 1 }

/-- The spec's weekend-split example: vacation from 1985-08-01 through
1985-08-08 (end of day, i.e. 1985-08-09 00:00). -/
def vacParams : NewSegmentParams :=
  { start := 5691 * dayLen, stop := some (5699 * dayLen), tags := ["vacation"] }

/-- A vacation request placed entirely on a weekend (Sat 1985-05-25 through
Sun, end of day 1985-05-27 00:00). -/
def vacWeekendParams : NewSegmentParams :=
  { start := 5623 * dayLen, stop := some (5625 * dayLen), tags := ["vacation"] }

/-- A store holding one full-day vacation row on day 100. -/
def dbVac : Store :=
  { rows := [{ pk := 1, start := 100 * dayLen, stop := some (101 * dayLen),
               passive := false, full_days := true, tags := ["vacation"],
               description := none }],
    nextPk := 2 }

/-- A full-day holiday request on day 100. -/
def holParams : NewSegmentParams :=
  { start := 100 * dayLen, stop := some (101 * dayLen), tags := ["holiday"],
    description := "New Year" }

/-- Holds when `days` is the list of consecutive day numbers a, a+1, a+2, ... -/
def DaysFrom : Int → List Int → Prop
  | _, [] => True
  | a, d :: ds => d = a ∧ DaysFrom (a + 1) ds

/-- Every row of `db'` either has `full_days = FALSE` or descends (same pk,
same flag) from a row already present in `db`: the reconciliation engine
never inserts a row with `full_days` set. -/
def FullDaysFromOld (db db' : Store) : Prop :=
  ∀ r ∈ db'.rows, r.full_days = false
    ∨ ∃ r0 ∈ db.rows, r0.pk = r.pk ∧ r0.full_days = true

/-- C3: the work-days-only split path of `_add` cannot run: building any
split piece reads `new_segment_params.full_days`, which models.py no longer
declares, so the spec's own weekend-split example (vacation 08-01..08-08,
which its tests expect to persist as [08-01..08-03) and [08-05..08-09))
raises AttributeError instead; only the all-weekend zero-range case
completes, as a no-op.  This contradicts the repository's tests
(`test_split_segment_params_per_weekday`, "long vacation is split by
weekends"), so the code, not the claim, is wrong. -/
theorem C3_weekday_split_raises_attribute_error :
    addFuel 5 (6000 * dayLen) rs0 vacParams db0 = .error attrErrParams
    ∧ split_segment_params_per_weekday vacParams rs0 = .error attrErrParams
    ∧ addFuel 5 (6000 * dayLen) rs0 vacWeekendParams db0 = .ok ([], db0) := by
  refine ⟨rfl, rfl, rfl⟩

/-- C4: the full-day conflict-candidate path of `_add` cannot run: the
filter `[s for s in db.get_segments_between(start, end) if s.full_days]`
reads the `full_days` attribute that models.PensiveRow no longer declares,
so as soon as the overlap query returns any row (here: a stored full-day
vacation overlapping the requested holiday, which the repository's test
"vacation day is removed when holiday collides" expects to be deleted) the
call raises AttributeError; the code, not the claim, is wrong. -/
theorem C4_full_day_filter_raises_attribute_error :
    addFuel 5 (6000 * dayLen) rs0 holParams dbVac = .error attrErrRow
    ∧ get_segments_between dbVac (100 * dayLen) (some (101 * dayLen)) false ≠ [] := by
  refine ⟨rfl, by decide⟩

/-- C6: the statutory-minimum-break stage of the daily summary moves break
time out of work time under exactly the two mutually exclusive rules of the
claim (6h15m/45m first, otherwise 4h/15m; at most one fires, and the stage
preserves the work+break total), and a single 00:00-09:00 segment yields
work_time 8h15m and break_time 45m. -/
theorem C6_statutory_breaks :
    (∀ w b : Int,
      (w > 375 * usecMinute → b < 45 * usecMinute →
        applyBreakRules w b = (w - (45 * usecMinute - b), 45 * usecMinute))
      ∧ (w > 375 * usecMinute → ¬ b < 45 * usecMinute → applyBreakRules w b = (w, b))
      ∧ (¬ w > 375 * usecMinute → w > 240 * usecMinute → b < 15 * usecMinute →
        applyBreakRules w b = (w - (15 * usecMinute - b), 15 * usecMinute))
      ∧ (¬ w > 375 * usecMinute → w > 240 * usecMinute → ¬ b < 15 * usecMinute →
        applyBreakRules w b = (w, b))
      ∧ (¬ w > 375 * usecMinute → ¬ w > 240 * usecMinute → applyBreakRules w b = (w, b))
      ∧ (applyBreakRules w b).1 + (applyBreakRules w b).2 = w + b)
    ∧ get_daily_summary 5623
        [{ pk := 1, start := 5623 * dayLen, stop := some (5623 * dayLen + 9 * usecHour),
           passive := false, tags := [], description := none }] 0 rs0
      = .ok { day := 5623, day_type := .WEEKEND,
              work_time := 8 * usecHour + 15 * usecMinute,
              break_time := 45 * usecMinute,
              over_time := 8 * usecHour + 15 * usecMinute,
              start := some 0, stop := some (9 * usecHour),
              description := none, by_tag := [] } := by
  constructor
  · intro w b
    refine ⟨?_, ?_, ?_, ?_, ?_, ?_⟩ <;>
      (intros; unfold applyBreakRules; split_ifs <;>
        simp_all [Prod.ext_iff, usecMinute] <;> omega)
  · rfl

/-- Witness for C6 at w = 7h, b = 0: the first statutory rule fires. -/
theorem C6_statutory_breaks_witness :
    applyBreakRules (420 * usecMinute) 0
      = (420 * usecMinute - (45 * usecMinute - 0), 45 * usecMinute) :=
  ((C6_statutory_breaks.1 (420 * usecMinute) 0).1 (by decide) (by decide))

/-- C7: the passive-work merge stage of the daily summary ignores passive
time when work alone exceeds 10h, clamps the sum to exactly 10h when it
would exceed 10h, and otherwise adds exactly; it never decreases work time
(for nonnegative passive time) and never exceeds max(work, 10h).  A day with
10h of passive travel and 3h of plain work merges to exactly 10h. -/
theorem C7_passive_work_cap :
    (∀ w p : Int,
      (w > 600 * usecMinute → mergePassiveWork w p = w)
      ∧ (¬ w > 600 * usecMinute → w + p > 600 * usecMinute →
          mergePassiveWork w p = 600 * usecMinute)
      ∧ (¬ w > 600 * usecMinute → ¬ w + p > 600 * usecMinute →
          mergePassiveWork w p = w + p)
      ∧ (0 ≤ p → w ≤ mergePassiveWork w p)
      ∧ mergePassiveWork w p ≤ max w (600 * usecMinute))
    ∧ get_daily_summary 5625
        [{ pk := 1, start := 5625 * dayLen, stop := some (5625 * dayLen + 10 * usecHour),
           passive := false, tags := ["travel"], description := none },
         { pk := 2, start := 5625 * dayLen + 12 * usecHour,
           stop := some (5625 * dayLen + 15 * usecHour),
           passive := false, tags := [], description := none }] 0 rs0
      = .ok { day := 5625, day_type := .WORK,
              work_time := 10 * usecHour, break_time := 2 * usecHour,
              over_time := 2 * usecHour,
              start := some 0, stop := some (15 * usecHour),
              description := none, by_tag := [("travel", 10 * usecHour)] } := by
  constructor
  · intro w p
    refine ⟨?_, ?_, ?_, ?_, ?_⟩ <;>
      (intros; unfold mergePassiveWork; split_ifs <;>
        simp_all [le_max_iff, usecMinute])
  · rfl

/-- Witness for C7 at w = 3h, p = 10h: the sum exceeds the cap and is
clamped to exactly 10h. -/
theorem C7_passive_work_cap_witness :
    mergePassiveWork (180 * usecMinute) (600 * usecMinute) = 600 * usecMinute :=
  ((C7_passive_work_cap.1 (180 * usecMinute) (600 * usecMinute)).2.1
    (by decide) (by decide))

/-- C9 counterexample: a segment touching 503 calendar days is not replaced
by one piece per day — the day iterator's 500-day defensive bound raises
instead. -/
theorem C9_counterexample_long_segment :
    split_segments_at_midnight
      [{ pk := 1, start := 0, stop := some (502 * dayLen + 1000),
         passive := false, tags := [], description := none }]
      = .error "Too many days" := by
  rfl

/-- C10 counterexample: a wrong-day segment placed after a holiday-tagged
segment does NOT raise — the holiday short-circuit returns a summary before
the violating segment's date is ever checked. -/
theorem C10_counterexample_holiday_masks_bad_day :
    get_daily_summary 5625
      [{ pk := 1, start := 5625 * dayLen, stop := some (5626 * dayLen),
         passive := false, tags := ["holiday"], description := none },
       { pk := 2, start := 5700 * dayLen, stop := some (5700 * dayLen + usecHour),
         passive := false, tags := [], description := none }] 0 rs0
      = .ok (holidaySummary 5625)
    ∧ dateOf (5700 * dayLen) ≠ 5625 := by
  refine ⟨rfl, by decide⟩

/-- C1: in every priority-comparing resolution branch of the conflict loop,
the outcome is discriminated by `get_tag_prio conflict.tags ≤ current prio` —
so a tie goes to the new segment — and `get_tag_prio` is the maximum priority
of the configured tags, 0 for untagged segments or when no tag has
settings.  The four branches: (1) the conflict covers the end of the new
segment (trim the conflict's start vs. trim the new end); (2) the conflict
is fully covered (delete it vs. split the new segment around it); (3) the
new segment sits strictly inside the conflict (split the conflict and insert
vs. reject); (4) the new segment starts strictly inside the conflict (trim
the conflict's end vs. advance the new start). -/
theorem C1_priority_ties_favor_new
    (f : NewSegmentParams → Store → Except String (List PensiveRow × Store))
    (now : Int) (rs : ReportSettings) (curPrio : Int) (c : PensiveRow)
    (rest : List PensiveRow) (p : NewSegmentParams) (s : Int) (db : Store) :
    (∀ e, s ≤ c.start → e > c.start →
      (c.stop = none ∨ ∃ ce, c.stop = some ce ∧ e < ce) →
      resolveLoop f now rs curPrio (c :: rest) p s (some e) db
        = if get_tag_prio c.tags rs.tag_settings ≤ curPrio then
            resolveLoop f now rs curPrio rest p s (some e) (updateSegStart db c.pk e)
          else
            resolveLoop f now rs curPrio rest
              { p with stop := some c.start } s (some c.start) db)
    ∧ (∀ e ce, s ≤ c.start → e > c.start → c.stop = some ce → ¬ e < ce →
      resolveLoop f now rs curPrio (c :: rest) p s (some e) db
        = if get_tag_prio c.tags rs.tag_settings ≤ curPrio then
            resolveLoop f now rs curPrio rest p s (some e) (delete_segment db c.pk)
          else
            (match addOpt f (split_segment_params p c).1 db with
             | .error m => .error m
             | .ok (r1, db1) =>
               match addOpt f (split_segment_params p c).2.2 db1 with
               | .error m => .error m
               | .ok (r2, db2) => .ok (r1 ++ r2, db2)))
    ∧ (∀ e ce, ¬ s ≤ c.start → c.stop = some ce → s > c.start → e < ce →
      resolveLoop f now rs curPrio (c :: rest) p s (some e) db
        = if get_tag_prio c.tags rs.tag_settings ≤ curPrio then
            .ok ([(add_segment_from_params (updateSegStop db c.pk (some s)) p).1,
                  (add_segment (add_segment_from_params (updateSegStop db c.pk (some s)) p).2
                    e (some ce) c.passive false c.tags c.description).1],
                 (add_segment (add_segment_from_params (updateSegStop db c.pk (some s)) p).2
                    e (some ce) c.passive false c.tags c.description).2)
          else .ok ([], db))
    ∧ (∀ e ce, ¬ s ≤ c.start → c.stop = some ce → ¬ (s > c.start ∧ e < ce) →
        s < ce → s > c.start →
      resolveLoop f now rs curPrio (c :: rest) p s (some e) db
        = if get_tag_prio c.tags rs.tag_settings ≤ curPrio then
            resolveLoop f now rs curPrio rest p s (some e) (updateSegStop db c.pk (some s))
          else
            resolveLoop f now rs curPrio rest { p with start := ce } ce (some e) db)
    ∧ (get_tag_prio [] rs.tag_settings = 0
       ∧ ∀ tags, (∀ t ∈ tags, rs.tag_settings.lookup t = none) →
           get_tag_prio tags rs.tag_settings = 0) := by
  refine ⟨?_, ?_, ?_, ?_, ?_, ?_⟩
  · intro e hs he hcover
    simp only [resolveLoop, if_pos hs, if_pos he]
    rcases hcover with h | ⟨ce, hce, hlt⟩
    · rw [h]
      simp
    · rw [hce]
      simp [hlt]
  · intro e ce hs he hce hfull
    simp only [resolveLoop, if_pos hs, if_pos he]
    rw [hce]
    simp [hfull]
  · intro e ce hs hce hgt hlt
    simp only [resolveLoop, if_neg hs]
    rw [hce]
    simp [hgt, hlt]
  · intro e ce hs hce hnmid hlt hgt
    simp only [resolveLoop, if_neg hs]
    rw [hce]
    simp only [hlt, hgt, if_pos, and_true, true_and]
    rw [if_neg (fun hh => hnmid ⟨hgt, hh⟩)]
  · simp [get_tag_prio]
  · intro tags h
    induction tags with
    | nil => simp [get_tag_prio]
    | cons t ts ih =>
      have ht := h t (by simp)
      have hts : ∀ u ∈ ts, rs.tag_settings.lookup u = none :=
        fun u hu => h u (by simp [hu])
      simp only [get_tag_prio, List.foldl_cons, ht]
      exact ih hts

/-- Witness for C1 (branch "conflict covers the end of the new segment",
with both segments untagged, so priorities tie at 0 and the new segment
wins: the conflict's start is moved to the new end). -/
theorem C1_priority_ties_favor_new_witness :
    resolveLoop (fun _ db => .ok ([], db)) 0 rs0 0
      [{ pk := 1, start := 10, stop := none, passive := false, tags := [],
         description := none }]
      { start := 0, stop := some 20, tags := [] } 0 (some 20) db0
    = resolveLoop (fun _ db => .ok ([], db)) 0 rs0 0 []
        { start := 0, stop := some 20, tags := [] } 0 (some 20)
        (updateSegStart db0 1 20) := by
  have h := (C1_priority_ties_favor_new (fun _ db => .ok ([], db)) 0 rs0 0
      { pk := 1, start := 10, stop := none, passive := false, tags := [],
        description := none }
      [] { start := 0, stop := some 20, tags := [] } 0 db0).1 20
      (by decide) (by decide) (Or.inl rfl)
  rw [h]
  rfl

/-- C2: in the full-cover branch (new starts at or before the conflict,
overlaps its start, and ends at or after the conflict's end), a winning new
segment deletes the conflict from the store and the loop continues on the
remaining conflicts; a losing new segment is split into the before piece
(new start to conflict start, when nonempty) and the after piece (conflict
end to new end, possibly open, when nonempty), the engine recurses on each
existing piece and returns the concatenation immediately — the store, and in
particular the conflicting segment, is handed to the recursion unmodified.
Deletion really removes every row with the conflict's pk. -/
theorem C2_full_cover_resolution
    (f : NewSegmentParams → Store → Except String (List PensiveRow × Store))
    (now : Int) (rs : ReportSettings) (curPrio : Int) (c : PensiveRow)
    (rest : List PensiveRow) (p : NewSegmentParams) (s e ce : Int) (db : Store)
    (hs : s ≤ c.start) (he : e > c.start) (hce : c.stop = some ce)
    (hfull : ¬ e < ce) :
    ((get_tag_prio c.tags rs.tag_settings ≤ curPrio →
        resolveLoop f now rs curPrio (c :: rest) p s (some e) db
          = resolveLoop f now rs curPrio rest p s (some e) (delete_segment db c.pk))
     ∧ (¬ get_tag_prio c.tags rs.tag_settings ≤ curPrio →
        resolveLoop f now rs curPrio (c :: rest) p s (some e) db
          = (match addOpt f (split_segment_params p c).1 db with
             | .error m => .error m
             | .ok (r1, db1) =>
               match addOpt f (split_segment_params p c).2.2 db1 with
               | .error m => .error m
               | .ok (r2, db2) => .ok (r1 ++ r2, db2))))
    ∧ (split_segment_params p c).1
        = (if p.start < c.start then
             some { start := p.start, stop := some c.start, tags := p.tags,
                    description := p.description, passive := p.passive }
           else none)
    ∧ (split_segment_params p c).2.2
        = (if (match p.stop with | some pe => decide (pe > ce) | none => true) then
             some { start := ce, stop := p.stop, tags := p.tags,
                    description := p.description, passive := p.passive }
           else none)
    ∧ (∀ r ∈ (delete_segment db c.pk).rows, r.pk ≠ c.pk) := by
  have hmain : resolveLoop f now rs curPrio (c :: rest) p s (some e) db
      = if get_tag_prio c.tags rs.tag_settings ≤ curPrio then
          resolveLoop f now rs curPrio rest p s (some e) (delete_segment db c.pk)
        else
          (match addOpt f (split_segment_params p c).1 db with
           | .error m => .error m
           | .ok (r1, db1) =>
             match addOpt f (split_segment_params p c).2.2 db1 with
             | .error m => .error m
             | .ok (r2, db2) => .ok (r1 ++ r2, db2)) := by
    simp only [resolveLoop, if_pos hs, if_pos he]
    rw [hce]
    simp [hfull]
  refine ⟨⟨fun hwin => ?_, fun hlose => ?_⟩, ?_, ?_, ?_⟩
  · rw [hmain, if_pos hwin]
  · rw [hmain, if_neg hlose]
  · rfl
  · simp only [split_segment_params, hce]
  · intro r hr
    simp only [delete_segment, List.mem_filter, decide_eq_true_eq] at hr
    exact hr.2

/-- Witness for C2 at an untagged conflict fully covered by an untagged new
segment: the tie goes to the new segment, deleting the conflict. -/
theorem C2_full_cover_resolution_witness :
    resolveLoop (fun _ db => .ok ([], db)) 0 rs0 0
      [{ pk := 1, start := 10, stop := some 20, passive := false, tags := [],
         description := none }]
      { start := 0, stop := some 30, tags := [] } 0 (some 30) db0
    = resolveLoop (fun _ db => .ok ([], db)) 0 rs0 0 []
        { start := 0, stop := some 30, tags := [] } 0 (some 30)
        (delete_segment db0 1) := by
  have h := (C2_full_cover_resolution (fun _ db => .ok ([], db)) 0 rs0 0
      { pk := 1, start := 10, stop := some 20, passive := false, tags := [],
        description := none }
      [] { start := 0, stop := some 30, tags := [] } 0 30 20 db0
      (by decide) (by decide) rfl (by decide)).1.1 (by decide)
  exact h

/-! ## Store invariant for C5: every insert of the engine has full_days FALSE. -/

theorem fdo_refl (db : Store) : FullDaysFromOld db db := by
  intro r hr
  by_cases h : r.full_days = false
  · exact Or.inl h
  · exact Or.inr ⟨r, hr, rfl, by simpa using h⟩

theorem fdo_trans {a b c : Store} (h1 : FullDaysFromOld a b)
    (h2 : FullDaysFromOld b c) : FullDaysFromOld a c := by
  intro r hr
  rcases h2 r hr with h | ⟨r0, hr0, hpk, htrue⟩
  · exact Or.inl h
  · rcases h1 r0 hr0 with h | ⟨r1, hr1, hpk1, htrue1⟩
    · exact absurd htrue (by simp [h])
    · exact Or.inr ⟨r1, hr1, by rw [hpk1, hpk], htrue1⟩

theorem fdo_addSegment (db : Store) (st : Int) (e : Option Int) (pv : Bool)
    (tags : List String) (d : Option String) :
    FullDaysFromOld db (add_segment db st e pv false tags d).2 := by
  intro r hr
  simp only [add_segment, List.mem_append, List.mem_singleton] at hr
  rcases hr with hr | hr
  · rcases fdo_refl db r hr with h | h
    · exact Or.inl h
    · exact Or.inr h
  · subst hr
    exact Or.inl rfl

theorem fdo_addSegmentFromParams (db : Store) (p : NewSegmentParams) :
    FullDaysFromOld db (add_segment_from_params db p).2 :=
  fdo_addSegment db p.start p.stop p.passive p.tags (some p.description)

theorem fdo_updateSegStart (db : Store) (pk : Nat) (v : Int) :
    FullDaysFromOld db (updateSegStart db pk v) := by
  intro r hr
  simp only [updateSegStart, List.mem_map] at hr
  obtain ⟨r0, hr0, hre⟩ := hr
  by_cases hfd : r.full_days = false
  · exact Or.inl hfd
  · refine Or.inr ⟨r0, hr0, ?_, ?_⟩ <;>
      (revert hre; split <;> intro hre <;> subst hre <;> simp_all)

theorem fdo_updateSegStop (db : Store) (pk : Nat) (v : Option Int) :
    FullDaysFromOld db (updateSegStop db pk v) := by
  intro r hr
  simp only [updateSegStop, List.mem_map] at hr
  obtain ⟨r0, hr0, hre⟩ := hr
  by_cases hfd : r.full_days = false
  · exact Or.inl hfd
  · refine Or.inr ⟨r0, hr0, ?_, ?_⟩ <;>
      (revert hre; split <;> intro hre <;> subst hre <;> simp_all)

theorem fdo_deleteSegment (db : Store) (pk : Nat) :
    FullDaysFromOld db (delete_segment db pk) := by
  intro r hr
  simp only [delete_segment, List.mem_filter] at hr
  rcases fdo_refl db r hr.1 with h | h
  · exact Or.inl h
  · exact Or.inr h

theorem fdo_addOpt {f : NewSegmentParams → Store → Except String (List PensiveRow × Store)}
    (hf : ∀ q db res db', f q db = .ok (res, db') → FullDaysFromOld db db') :
    ∀ (o : Option NewSegmentParams) (db : Store) (res : List PensiveRow) (db' : Store),
      addOpt f o db = .ok (res, db') → FullDaysFromOld db db' := by
  intro o db res db' h
  cases o with
  | none =>
    simp only [addOpt] at h
    cases h
    exact fdo_refl db
  | some q => exact hf q db res db' h

theorem fdo_addMany {f : NewSegmentParams → Store → Except String (List PensiveRow × Store)}
    (hf : ∀ q db res db', f q db = .ok (res, db') → FullDaysFromOld db db') :
    ∀ (qs : List NewSegmentParams) (db : Store) (res : List PensiveRow) (db' : Store),
      addMany f qs db = .ok (res, db') → FullDaysFromOld db db' := by
  intro qs
  induction qs with
  | nil =>
    intro db res db' h
    simp only [addMany] at h
    cases h
    exact fdo_refl db
  | cons q rest ih =>
    intro db res db' h
    simp only [addMany] at h
    split at h
    next m heq1 => simp at h
    next r1 db1 heq1 =>
      cases hrec : addMany f rest db1 with
      | error m => rw [hrec] at h; simp at h
      | ok r2db2 =>
        obtain ⟨r2, db2⟩ := r2db2
        rw [hrec] at h
        cases h
        exact fdo_trans (hf q db _ _ heq1) (ih _ _ _ hrec)



theorem fdo_resolveLoop {f : NewSegmentParams → Store → Except String (List PensiveRow × Store)}
    (hf : ∀ q db res db', f q db = .ok (res, db') → FullDaysFromOld db db')
    (now : Int) (rs : ReportSettings) (curPrio : Int) :
    ∀ (cs : List PensiveRow) (p : NewSegmentParams) (s : Int) (e? : Option Int)
      (db : Store) (res : List PensiveRow) (db' : Store),
      resolveLoop f now rs curPrio cs p s e? db = .ok (res, db') →
      FullDaysFromOld db db' := by
  intro cs
  induction cs with
  | nil =>
    intro p s e? db res db' h
    simp only [resolveLoop] at h
    cases h
    exact fdo_addSegmentFromParams db p
  | cons c rest ih =>
    intro p s e? db res db' h
    simp only [resolveLoop] at h
    by_cases hs : s ≤ c.start
    · rw [if_pos hs] at h
      split at h
      · rename_i e
        by_cases h1 : e > c.start
        · rw [if_pos h1] at h
          split at h
          · split at h
            · exact fdo_trans (fdo_updateSegStart db c.pk e) (ih _ _ _ _ _ _ h)
            · exact ih _ _ _ _ _ _ h
          · split at h
            · exact fdo_trans (fdo_deleteSegment db c.pk) (ih _ _ _ _ _ _ h)
            · split at h
              next m heqA => simp at h
              next r1 db1 heqA =>
                split at h
                next m heqB => simp at h
                next r2 db2 heqB =>
                  cases h
                  exact fdo_trans (fdo_addOpt hf _ _ _ _ heqA) (fdo_addOpt hf _ _ _ _ heqB)
        · rw [if_neg h1] at h
          exact ih _ _ _ _ _ _ h
      · split at h
        · exact ih _ _ _ _ _ _ h
        · exact ih _ _ _ _ _ _ h
    · rw [if_neg hs] at h
      split at h
      · exact fdo_trans (fdo_updateSegStop db c.pk (some s)) (ih _ _ _ _ _ _ h)
      · rename_i ce hce
        split at h
        · rename_i e
          split at h
          · split at h
            · cases h
              exact fdo_trans (fdo_updateSegStop db c.pk (some s))
                (fdo_trans (fdo_addSegmentFromParams (updateSegStop db c.pk (some s)) p)
                  (fdo_addSegment (add_segment_from_params (updateSegStop db c.pk (some s)) p).2
                    e (some ce) c.passive c.tags c.description))
            · cases h
              exact fdo_refl db
          · split at h
            · split at h
              · exact fdo_trans (fdo_updateSegStop db c.pk (some s)) (ih _ _ _ _ _ _ h)
              · exact ih _ _ _ _ _ _ h
            · exact ih _ _ _ _ _ _ h
        · split at h
          · split at h
            · exact fdo_trans (fdo_updateSegStop db c.pk (some s)) (ih _ _ _ _ _ _ h)
            · exact ih _ _ _ _ _ _ h
          · exact ih _ _ _ _ _ _ h

theorem fdo_tagLoop {f : NewSegmentParams → Store → Except String (List PensiveRow × Store)}
    (hf : ∀ q db res db', f q db = .ok (res, db') → FullDaysFromOld db db')
    (rs : ReportSettings) (s : Int) (e? : Option Int) (db : Store) :
    ∀ (ts : List String) (p : NewSegmentParams) (acc : Option (List PensiveRow))
      (res : List PensiveRow) (db' : Store),
      tagLoop f rs s e? db ts p acc = .ok (.inl (res, db')) →
      FullDaysFromOld db db' := by
  intro ts
  induction ts with
  | nil =>
    intro p acc res db' h
    simp [tagLoop] at h
  | cons t ts ih =>
    intro p acc res db' h
    simp only [tagLoop] at h
    split at h
    · exact ih _ _ _ _ h
    · split at h
      · split at h
        next m heq => simp at h
        next parts heq =>
          split at h
          · cases h
            exact fdo_refl db
          · split at h
            · split at h
              next m heq2 => simp at h
              next r2 heq2 =>
                cases h
                exact fdo_addMany hf _ _ _ _ heq2
            · split at h
              · split at h
                · exact ih _ _ _ _ h
                · simp at h
              · exact ih _ _ _ _ h
      · split at h
        · split at h
          · exact ih _ _ _ _ h
          · simp at h
        · exact ih _ _ _ _ h

theorem fdo_addFuel :
    ∀ (fuel : Nat) (now : Int) (rs : ReportSettings) (p : NewSegmentParams)
      (db : Store) (res : List PensiveRow) (db' : Store),
      addFuel fuel now rs p db = .ok (res, db') → FullDaysFromOld db db' := by
  intro fuel
  induction fuel with
  | zero =>
    intro now rs p db res db' h
    simp [addFuel] at h
  | succ n ih =>
    intro now rs p db res db' h
    have hf : ∀ q db res db', addFuel n now rs q db = .ok (res, db') →
        FullDaysFromOld db db' := fun q db res db' => ih now rs q db res db'
    simp only [addFuel] at h
    split at h
    next m heq => simp at h
    next res0 heq =>
      cases h
      exact fdo_tagLoop hf rs p.start p.stop db _ _ _ _ _ heq
    next p1 acc heq =>
      exact fdo_resolveLoop hf now rs _ _ _ _ _ _ _ _ h

/-- C5: every segment the reconciliation engine persists is stored with
full_days = FALSE.  (1) Whenever `_add` succeeds, every row of the resulting
store either carries `full_days = FALSE` or descends (same pk, same flag)
from a pre-existing row — no insert of the engine ever sets the flag.
(2) NewSegmentParams has no full_days field, so a `full_days=` constructor
argument is silently dropped whatever its value.  (3) An insert via
`add_segment(**params.model_dump())` appends exactly one row, with
`full_days = FALSE` — the store default — even when the params carry
full-day tags. -/
theorem C5_engine_inserts_full_days_false :
    (∀ (fuel : Nat) (now : Int) (rs : ReportSettings) (p : NewSegmentParams)
       (db : Store) (res : List PensiveRow) (db' : Store),
       addFuel fuel now rs p db = .ok (res, db') → FullDaysFromOld db db')
    ∧ (∀ (start : Int) (stop : Option Int) (tags : List String)
         (descr : String) (passive : Bool) (fd fd' : Bool),
         mkNewSegmentParamsWithFullDays start stop tags descr passive fd
           = mkNewSegmentParamsWithFullDays start stop tags descr passive fd')
    ∧ (∀ (db : Store) (p : NewSegmentParams),
         (add_segment_from_params db p).2.rows
           = db.rows ++
             [{ pk := db.nextPk, start := p.start, stop := p.stop,
                passive := p.passive, full_days := false, tags := p.tags,
                description := some p.description }]) := by
  refine ⟨fdo_addFuel, fun _ _ _ _ _ _ _ => rfl, fun _ _ => rfl⟩

/-- Witness for C5: a plain one-segment insert into the empty store yields a
store whose only row has full_days FALSE. -/
theorem C5_engine_inserts_full_days_false_witness :
    FullDaysFromOld db0
      { rows := [{ pk := 1, start := 0, stop := some 10, passive := false,
                   full_days := false, tags := [], description := some "" }],
        nextPk := 2 } :=
  C5_engine_inserts_full_days_false.1 1 0 rs0
    { start := 0, stop := some 10, tags := [] } db0
    [{ pk := 1, start := 0, stop := some 10, passive := false, tags := [],
       description := some "" }]
    { rows := [{ pk := 1, start := 0, stop := some 10, passive := false,
                 full_days := false, tags := [], description := some "" }],
      nextPk := 2 }
    (by rfl)

theorem sumLoop_inl (rs : ReportSettings) (day now : Int) (tw tb : Bool) :
    ∀ (segs : List PensiveRow) (st : SumState) (d : DailySummary),
      sumLoop rs day now tw tb segs st = .ok (.inl d) → d = holidaySummary day := by
  intro segs
  induction segs with
  | nil =>
    intro st d h
    simp [sumLoop] at h
  | cons seg rest ih =>
    intro st d h
    simp only [sumLoop] at h
    split at h
    · simp at h
    · split at h
      · cases h
        rfl
      · exact ih _ _ h

/-- C8: whenever the literal tag "sick" occurs among a day's segment tags,
an (error-free) daily summary never reports negative overtime; without it,
overtime may be negative: the spec's example day — one passive travel hour
against 8 required hours — reports exactly -7h, and reports 0 as soon as a
full-day sick segment is added. -/
theorem C8_sick_day_overtime_floor :
    (∀ (day : Int) (segs : List PensiveRow) (now : Int) (rs : ReportSettings)
       (s : DailySummary),
       "sick" ∈ collectTags segs →
       get_daily_summary day segs now rs = .ok s → 0 ≤ s.over_time)
    ∧ get_daily_summary 5625
        [{ pk := 1, start := 5625 * dayLen + 9 * usecHour,
           stop := some (5625 * dayLen + 10 * usecHour),
           passive := false, tags := ["travel"], description := none }] 0 rs0
      = .ok { day := 5625, day_type := .WORK, work_time := usecHour,
              break_time := 0, over_time := -(7 * usecHour),
              start := some (9 * usecHour), stop := some (10 * usecHour),
              description := none, by_tag := [("travel", usecHour)] }
    ∧ get_daily_summary 5625
        [{ pk := 2, start := 5625 * dayLen, stop := some (5626 * dayLen),
           passive := false, tags := ["sick"], description := none },
         { pk := 1, start := 5625 * dayLen + 9 * usecHour,
           stop := some (5625 * dayLen + 10 * usecHour),
           passive := false, tags := ["travel"], description := none }] 0 rs0
      = .ok { day := 5625, day_type := .WORK, work_time := -(15 * usecHour),
              break_time := 0, over_time := 0,
              start := some 0, stop := some (10 * usecHour),
              description := none,
              by_tag := [("sick", 24 * usecHour), ("travel", usecHour)] } := by
  refine ⟨?_, by rfl, by rfl⟩
  intro day segs now rs s hsick h
  simp only [get_daily_summary] at h
  split at h
  next m heq => simp at h
  next d0 heq =>
    cases h
    rw [sumLoop_inl rs day now _ _ segs _ _ heq]
    simp [holidaySummary]
  next st heq =>
    split at h
    next m heq2 => simp at h
    next w1 b1 heq2 =>
      split at h
      next heq3 => simp at h
      next req heq3 =>
        cases h
        simp only
        split
        · split
          · exact Int.le_refl 0
          · rename_i hcond
            rcases not_and_or.mp hcond with hc | hc
            · exact absurd hsick hc
            · omega
        · split
          · exact Int.le_refl 0
          · rename_i hcond
            rcases not_and_or.mp hcond with hc | hc
            · exact absurd hsick hc
            · omega

/-- Witness for C8 at a single full-day sick segment: the reported overtime
is nonnegative. -/
theorem C8_sick_day_overtime_floor_witness :
    (0 : Int) ≤ (DailySummary.mk 5625 .WORK 0 0 0 (some 0) (some 0) none
      [("sick", 24 * usecHour)]).over_time :=
  C8_sick_day_overtime_floor.1 5625
    [{ pk := 2, start := 5625 * dayLen, stop := some (5626 * dayLen),
       passive := false, tags := ["sick"], description := none }] 0 rs0
    (DailySummary.mk 5625 .WORK 0 0 0 (some 0) (some 0) none
      [("sick", 24 * usecHour)])
    (by decide) (by rfl)

theorem chainFrom_append (l1 l2 : List PensiveRow) : ∀ s : Int,
    chainFrom s (l1 ++ l2) = (chainFrom s l1).bind (fun m => chainFrom m l2) := by
  induction l1 with
  | nil =>
    intro s
    simp [chainFrom]
  | cons r rest ih =>
    intro s
    simp only [List.cons_append, chainFrom]
    split
    · cases r.stop with
      | some e => exact ih e
      | none => rfl
    · rfl

theorem range_daysFrom : ∀ (n : Nat) (a : Int),
    DaysFrom a ((List.range n).map (fun i => a + Int.ofNat i)) := by
  intro n
  induction n with
  | zero =>
    intro a
    simp [DaysFrom]
  | succ m ih =>
    intro a
    rw [List.range_succ_eq_map]
    simp only [List.map_cons, List.map_map]
    refine ⟨by simp, ?_⟩
    rw [show (List.map ((fun i => a + Int.ofNat i) ∘ Nat.succ) (List.range m))
          = (List.range m).map (fun i => (a + 1) + Int.ofNat i) from
        List.map_congr_left (fun i _ => by simp [Function.comp]; ring)]
    exact ih (a + 1)

theorem chain_days (row : PensiveRow) (e : Int) :
    ∀ (days : List Int) (a : Int), DaysFrom a days →
      (∀ d ∈ days, d ≠ dateOf e) →
      chainFrom (a * dayLen)
        (days.map (fun d => { row with start := d * dayLen, stop := some (if d = dateOf e then e else (d + 1) * dayLen) }))
        = some ((a + Int.ofNat days.length) * dayLen) := by
  intro days
  induction days with
  | nil =>
    intro a _ _
    simp [chainFrom]
  | cons d ds ih =>
    intro a hdf hne
    obtain ⟨rfl, hds⟩ := hdf
    simp only [List.map_cons, chainFrom, if_true]
    rw [if_neg (hne d (List.mem_cons_self d ds))]
    rw [ih (d + 1) hds (fun x hx => hne x (List.mem_cons_of_mem d hx))]
    congr 1
    simp only [List.length_cons, Int.ofNat_eq_natCast, dayLen]
    push_cast
    ring

theorem splitRow_spec (row : PensiveRow) (e : Int) (hstop : row.stop = some e)
    (hne : dateOf e ≠ dateOf row.start) (hle : row.start ≤ e)
    (hcap : dateOf (e - 1) - dateOf row.start ≤ 500) :
    ∃ pieces, splitRow row = .ok pieces
      ∧ chainFrom row.start pieces = some e
      ∧ (∀ q ∈ pieces, q.pk = row.pk ∧ q.tags = row.tags
          ∧ q.description = row.description ∧ q.passive = row.passive)
      ∧ pieces.length = (dateOf (e - 1) - dateOf row.start + 1).toNat := by
  have hd1 : dateOf row.start + 1 ≤ dateOf e := by
    simp only [dateOf, dayLen] at hne hle ⊢
    omega
  have hge : (dateOf row.start + 1) * dayLen ≤ e := by
    simp only [dateOf, dayLen] at hd1 ⊢
    omega
  by_cases hsmall : e - 1 < (dateOf row.start + 1) * dayLen
  · -- the end is exactly the first midnight after the start day
    have he : e = (dateOf row.start + 1) * dayLen := by omega
    have hiter : iter_over_days (end_of_day row.start) e = .ok [] := by
      simp only [iter_over_days, end_of_day]
      rw [if_pos hsmall]
    refine ⟨[{ row with stop := some (end_of_day row.start) }], ?_, ?_, ?_, ?_⟩
    · simp only [splitRow, hstop]
      rw [if_neg hne, hiter]
      simp
    · simp only [chainFrom, if_true, end_of_day]
      rw [← he]
    · intro q hq
      rcases List.mem_cons.mp hq with rfl | hq
      · exact ⟨rfl, rfl, rfl, rfl⟩
      · simp at hq
    · have : dateOf (e - 1) = dateOf row.start := by
        rw [he]
        simp only [dateOf, dayLen] at *
        omega
      rw [this]
      simp
  · -- at least one full day follows the start day
    have heq1 : dateOf ((dateOf row.start + 1) * dayLen) = dateOf row.start + 1 := by
      simp only [dateOf, dayLen]
      omega
    have hk1 : dateOf row.start + 1 ≤ dateOf (e - 1) := by
      simp only [dateOf, dayLen] at hsmall ⊢
      omega
    have hiter : iter_over_days (end_of_day row.start) e
        = .ok ((List.range (dateOf (e - 1) - dateOf row.start).toNat).map
            (fun i => (dateOf row.start + 1) + Int.ofNat i)) := by
      simp only [iter_over_days, end_of_day]
      rw [if_neg hsmall]
      rw [heq1]
      rw [if_neg (by omega)]
      congr 2
      congr 1
      omega
    refine ⟨{ row with stop := some (end_of_day row.start) } ::
        ((List.range (dateOf (e - 1) - dateOf row.start).toNat).map
            (fun i => (dateOf row.start + 1) + Int.ofNat i)).map
          (fun d => { row with start := d * dayLen, stop := some (if d = dateOf e then e else (d + 1) * dayLen) }),
      ?_, ?_, ?_, ?_⟩
    · simp only [splitRow, hstop]
      rw [if_neg hne, hiter]
    · simp only [chainFrom, if_true, end_of_day]
      by_cases hmod : e % dayLen = 0
      · -- the end is an exact midnight: no day in the list is dateOf e
        have hk : dateOf (e - 1) + 1 = dateOf e := by
          simp only [dateOf, dayLen] at hmod ⊢
          omega
        rw [chain_days row e _ (dateOf row.start + 1) (range_daysFrom _ _) ?hne1]
        case hne1 =>
          intro d hd
          obtain ⟨i, hi, rfl⟩ := List.mem_map.mp hd
          have hir := List.mem_range.mp hi
          simp only [Int.ofNat_eq_natCast] at hir ⊢
          omega
        simp only [List.length_map, List.length_range]
        congr 1
        simp only [Int.ofNat_eq_natCast]
        simp only [dateOf, dayLen] at hmod hk1 ⊢
        omega
      · -- the end lies strictly inside its day: the last piece ends at e
        have hk : dateOf (e - 1) = dateOf e := by
          simp only [dateOf, dayLen] at hmod ⊢
          omega
        obtain ⟨m, hm⟩ : ∃ m, (dateOf (e - 1) - dateOf row.start).toNat = m + 1 :=
          ⟨(dateOf (e - 1) - dateOf row.start).toNat - 1, by omega⟩
        rw [hm, List.range_succ, List.map_append, List.map_append, chainFrom_append]
        rw [chain_days row e _ (dateOf row.start + 1) (range_daysFrom _ _) ?hne2]
        case hne2 =>
          intro d hd
          obtain ⟨i, hi, rfl⟩ := List.mem_map.mp hd
          have hir := List.mem_range.mp hi
          simp only [Int.ofNat_eq_natCast] at hir ⊢
          omega
        simp only [List.length_map, List.length_range]
        have hlast : dateOf row.start + 1 + Int.ofNat m = dateOf e := by
          simp only [Int.ofNat_eq_natCast]
          omega
        simp only [List.map_cons, List.map_nil]
        rw [hlast]
        simp [chainFrom]
    · intro q hq
      rcases List.mem_cons.mp hq with rfl | hq
      · exact ⟨rfl, rfl, rfl, rfl⟩
      · obtain ⟨d, _, rfl⟩ := List.mem_map.mp hq
        exact ⟨rfl, rfl, rfl, rfl⟩
    · simp only [List.length_cons, List.length_map, List.length_range]
      omega

/-- C9 (amended): the midnight splitter yields unchanged any open segment
and any segment contained in its start day; a forward segment (start ≤ end)
touching at most 501 calendar days is replaced by one piece per day whose
spans chain from the original start to the original end with no gap or
overlap, all pieces keeping pk, tags, description and passive; and the
spec's example splits into exactly the two expected pieces.  (The
counterexample theorem shows the original unrestricted claim fails: past
500 days the day iterator raises instead of splitting.) -/
theorem C9_midnight_split_roundtrip :
    (∀ row : PensiveRow, row.stop = none → splitRow row = .ok [row])
    ∧ (∀ (row : PensiveRow) (e : Int), row.stop = some e →
        dateOf e = dateOf row.start → splitRow row = .ok [row])
    ∧ (∀ (row : PensiveRow) (e : Int), row.stop = some e →
        dateOf e ≠ dateOf row.start → row.start ≤ e →
        dateOf (e - 1) - dateOf row.start ≤ 500 →
        ∃ pieces, splitRow row = .ok pieces
          ∧ chainFrom row.start pieces = some e
          ∧ (∀ q ∈ pieces, q.pk = row.pk ∧ q.tags = row.tags
              ∧ q.description = row.description ∧ q.passive = row.passive)
          ∧ pieces.length = (dateOf (e - 1) - dateOf row.start + 1).toNat)
    ∧ split_segments_at_midnight
        [{ pk := 1, start := 5623 * dayLen + 12 * usecHour,
           stop := some (5624 * dayLen + usecHour),
           passive := false, tags := [], description := none }]
      = .ok [{ pk := 1, start := 5623 * dayLen + 12 * usecHour,
               stop := some (5624 * dayLen),
               passive := false, tags := [], description := none },
             { pk := 1, start := 5624 * dayLen,
               stop := some (5624 * dayLen + usecHour),
               passive := false, tags := [], description := none }] := by
  refine ⟨?_, ?_, splitRow_spec, by rfl⟩
  · intro row h
    simp [splitRow, h]
  · intro row e hstop heq
    simp [splitRow, hstop, heq]

/-- Witness for C9 at the 1985-05-25 12:00 .. 05-26 01:00 example row. -/
theorem C9_midnight_split_roundtrip_witness :
    ∃ pieces, splitRow
        { pk := 1, start := 5623 * dayLen + 12 * usecHour,
          stop := some (5624 * dayLen + usecHour),
          passive := false, tags := [], description := none }
      = .ok pieces
      ∧ chainFrom (5623 * dayLen + 12 * usecHour) pieces
          = some (5624 * dayLen + usecHour)
      ∧ (∀ q ∈ pieces, q.pk = 1 ∧ q.tags = ([] : List String)
          ∧ q.description = none ∧ q.passive = false)
      ∧ pieces.length
          = (dateOf (5624 * dayLen + usecHour - 1) - dateOf (5623 * dayLen + 12 * usecHour) + 1).toNat :=
  C9_midnight_split_roundtrip.2.2.1
    { pk := 1, start := 5623 * dayLen + 12 * usecHour,
      stop := some (5624 * dayLen + usecHour),
      passive := false, tags := [], description := none }
    (5624 * dayLen + usecHour) rfl (by decide) (by decide) (by decide)

theorem sumLoop_err (rs : ReportSettings) (day now : Int) (tw tb : Bool) :
    ∀ (segs : List PensiveRow) (st : SumState) (m : String),
      sumLoop rs day now tw tb segs st = .error m →
      ∃ r ∈ segs, dateOf r.start ≠ day := by
  intro segs
  induction segs with
  | nil =>
    intro st m h
    simp [sumLoop] at h
  | cons seg rest ih =>
    intro st m h
    simp only [sumLoop] at h
    split at h
    · exact ⟨seg, List.mem_cons_self seg rest, by assumption⟩
    · split at h
      · simp at h
      · obtain ⟨r, hr, hd⟩ := ih _ _ h
        exact ⟨r, List.mem_cons_of_mem seg hr, hd⟩

theorem sumLoop_ok_of (rs : ReportSettings) (day now : Int) (tw tb : Bool) :
    ∀ (segs : List PensiveRow) (st : SumState),
      (∀ r ∈ segs, dateOf r.start = day) →
      ∃ out, sumLoop rs day now tw tb segs st = .ok out := by
  intro segs
  induction segs with
  | nil =>
    intro st _
    exact ⟨.inr st, rfl⟩
  | cons seg rest ih =>
    intro st hd
    simp only [sumLoop]
    rw [if_neg (not_not_intro (hd seg (List.mem_cons_self seg rest)))]
    by_cases hh : rs.holiday_tag ∈ seg.tags
    · rw [if_pos hh]
      exact ⟨.inl (holidaySummary day), rfl⟩
    · rw [if_neg hh]
      exact ih _ (fun r hr => hd r (List.mem_cons_of_mem seg hr))

theorem gapLoop_err :
    ∀ (segs : List PensiveRow) (w b : Int) (m : String),
      gapLoop segs w b = .error m →
      ∃ l1 a b2 l2, segs = l1 ++ a :: b2 :: l2 ∧ a.stop = none := by
  intro segs
  induction segs with
  | nil =>
    intro w b m h
    simp [gapLoop] at h
  | cons a tail ih =>
    intro w b m h
    cases tail with
    | nil => simp [gapLoop] at h
    | cons bseg rest =>
      simp only [gapLoop] at h
      split at h
      · exact ⟨[], a, bseg, rest, rfl, by assumption⟩
      · split at h
        · obtain ⟨l1, x, y, l2, hE, hnone⟩ := ih _ _ _ h
          exact ⟨a :: l1, x, y, l2, by rw [List.cons_append, ← hE], hnone⟩
        · obtain ⟨l1, x, y, l2, hE, hnone⟩ := ih _ _ _ h
          exact ⟨a :: l1, x, y, l2, by rw [List.cons_append, ← hE], hnone⟩

theorem gapLoop_ok_of :
    ∀ (segs : List PensiveRow) (w b : Int),
      (∀ l1 a b2 l2, segs = l1 ++ a :: b2 :: l2 → a.stop ≠ none) →
      ∃ out, gapLoop segs w b = .ok out := by
  intro segs
  induction segs with
  | nil =>
    intro w b _
    exact ⟨(w, b), rfl⟩
  | cons a tail ih =>
    intro w b hc
    cases tail with
    | nil => exact ⟨(w, b), rfl⟩
    | cons bseg rest =>
      have ha : a.stop ≠ none := hc [] a bseg rest rfl
      simp only [gapLoop]
      cases hstop : a.stop with
      | none => exact absurd hstop ha
      | some ae =>
        dsimp only
        have hc' : ∀ l1 x y l2, (bseg :: rest) = l1 ++ x :: y :: l2 → x.stop ≠ none :=
          fun l1 x y l2 hE => hc (a :: l1) x y l2 (by rw [List.cons_append, ← hE])
        by_cases hg : bseg.start - ae > usecMinute
        · rw [if_pos hg]
          exact ih _ _ hc'
        · rw [if_neg hg]
          exact ih _ _ hc'

/-- C10 (amended): the daily summary raises only when the input violates the
caller's partitioning contract (a segment off the given day, or an open
segment followed by another) — or when the weekday table lacks the day's
weekday — and raises nothing when the input satisfies both conditions and
the weekday table covers the day.  (The counterexample theorem shows
"exactly when" fails in the other direction: a violating input can still
return normally when the holiday short-circuit fires first.) -/
theorem C10_summary_error_conditions :
    (∀ (day : Int) (segs : List PensiveRow) (now : Int) (rs : ReportSettings) (m : String),
       get_daily_summary day segs now rs = .error m →
       (∃ r ∈ segs, dateOf r.start ≠ day)
       ∨ (∃ l1 a b l2, segs = l1 ++ a :: b :: l2 ∧ a.stop = none)
       ∨ rs.worktime_per_weekday.lookup (weekday day) = none)
    ∧ (∀ (day : Int) (segs : List PensiveRow) (now : Int) (rs : ReportSettings),
       (∀ r ∈ segs, dateOf r.start = day) →
       (∀ l1 a b l2, segs = l1 ++ a :: b :: l2 → a.stop ≠ none) →
       (rs.worktime_per_weekday.lookup (weekday day)).isSome →
       ∃ s, get_daily_summary day segs now rs = .ok s) := by
  constructor
  · intro day segs now rs m h
    simp only [get_daily_summary] at h
    split at h
    next m2 heq =>
      exact Or.inl (sumLoop_err rs day now _ _ segs _ m2 heq)
    next d0 heq => simp at h
    next st heq =>
      split at h
      next m2 heq2 =>
        exact Or.inr (Or.inl (gapLoop_err segs _ _ m2 heq2))
      next w1 b1 heq2 =>
        split at h
        next heq3 => exact Or.inr (Or.inr heq3)
        next req heq3 => simp at h
  · intro day segs now rs hdate hopen hkey
    obtain ⟨out, hout⟩ := sumLoop_ok_of rs day now
      (trackingFlags rs (collectTags segs)).1 (trackingFlags rs (collectTags segs)).2.1
      segs { work := 0, passiveW := 0, brk := 0, startT := none, byTag := [] } hdate
    cases out with
    | inl d =>
      exact ⟨d, by simp only [get_daily_summary, hout]⟩
    | inr st =>
      obtain ⟨out2, hgap⟩ := gapLoop_ok_of segs st.work st.brk hopen
      obtain ⟨w1, b1⟩ := out2
      obtain ⟨req, hreq⟩ := Option.isSome_iff_exists.mp hkey
      refine ⟨{ day := day,
                day_type := if req ≠ 0 then DayType.WORK else DayType.WEEKEND,
                work_time := mergePassiveWork (applyBreakRules w1 b1).1 st.passiveW,
                break_time := (applyBreakRules w1 b1).2,
                over_time := if "sick" ∈ collectTags segs ∧
                      (mergePassiveWork (applyBreakRules w1 b1).1 st.passiveW -
                        if (trackingFlags rs (collectTags segs)).2.2 = true then req else 0) < 0
                    then 0
                    else mergePassiveWork (applyBreakRules w1 b1).1 st.passiveW -
                      if (trackingFlags rs (collectTags segs)).2.2 = true then req else 0,
                start := st.startT,
                stop := match segs.getLast? with
                        | some lastSeg => Option.map timeOf lastSeg.stop
                        | none => none,
                description := none,
                by_tag := st.byTag }, ?_⟩
      simp only [get_daily_summary, hout, hgap, hreq]

/-- Witness for C10 at a single well-formed segment, default settings: the
summary computes without error. -/
theorem C10_summary_error_conditions_witness :
    ∃ s, get_daily_summary 5625
        [{ pk := 1, start := 5625 * dayLen, stop := some (5625 * dayLen + usecHour),
           passive := false, tags := [], description := none }] 0 rs0 = .ok s :=
  C10_summary_error_conditions.2 5625
    [{ pk := 1, start := 5625 * dayLen, stop := some (5625 * dayLen + usecHour),
       passive := false, tags := [], description := none }] 0 rs0
    (by intro r hr; simp at hr; rw [hr]; decide)
    (by intro l1 a b l2 hE; cases l1 <;> simp_all)
    (by decide)
